import Mathlib

/-!
# Verification of the mx-b gameplay core

Shallow embedding of the game-state store (`src/store.ts`), the pause wiring
(`src/App.tsx`), the player score update (`src/components/Player.tsx`) and the
track manager (`TrackManager`: segment generation, init/reseed, collectible
collection).  JavaScript numbers are modelled by `ℚ`/`ℤ`/`ℕ` where the code
only performs exact arithmetic and comparisons, and by `ℝ` for the trigonometric
track geometry.  `Math.random()` is modelled by an explicit draw stream
`rng : ℕ → ℚ` with a threaded draw counter, each `rng k` standing for one call.

The enumerations below come from `src/types.ts`, which is not part of the
source tree; their constructors are reconstructed from their use sites in
`store.ts`, `App.tsx` and the components.
-/

namespace Slope

/-- Lifecycle states of the game (from the `GameState` enum of `types.ts`,
constructors as used across `store.ts`, `App.tsx` and the UI screens). -/
inductive GameState
  | MENU | PLAYING | PAUSED | GAME_OVER | LEADERBOARD | SHOP | OPTIONS | INFO
  deriving DecidableEq

/-- Track generation pattern (from the `GamePattern` enum of `types.ts`). -/
inductive GamePattern
  | FLAT_WITH_OBSTACLES | NON_FLAT_NO_OBSTACLES
  deriving DecidableEq

/-- Segment variant tag (from the `SegmentType` enum of `types.ts`). -/
inductive SegmentType
  | NORMAL | STEEP | NARROW | BANKED | TURN
  deriving DecidableEq

/-- Difficulty setting (from the `Difficulty` enum of `types.ts`). -/
inductive Difficulty
  | EASY | NORMAL | HARD
  deriving DecidableEq

/-- A purchasable ball skin (`BallSkin` of `types.ts`; the fields used by
`store.ts` are `id`, `price`, `owned`; colour strings are carried opaquely). -/
structure BallSkin where
  id : String
  name : String
  color : String
  wireframeColor : String
  emissiveColor : String
  price : ℤ
  owned : Bool
  deriving DecidableEq

/-- A purchasable background skin (`BackgroundSkin` of `types.ts`). -/
structure BackgroundSkin where
  id : String
  name : String
  backgroundColor : String
  outlineColor : String
  fogColor : String
  price : ℤ
  owned : Bool
  deriving DecidableEq

/-- One leaderboard row (`LeaderboardEntry` of `types.ts`): `rank`, `score`
and an ISO date string. -/
structure LeaderboardEntry where
  rank : ℕ
  score : ℤ
  date : String
  deriving DecidableEq

/-- Key bindings for the three actions (`InputBindings` of `types.ts`). -/
structure InputBindings where
  left : List String
  right : List String
  jump : List String
  deriving DecidableEq

/-- Player-facing options (`GameOptions` of `types.ts`). -/
structure GameOptions where
  difficulty : Difficulty
  ballSkinId : String
  backgroundSkinId : String
  musicVolume : ℚ
  sfxVolume : ℚ
  inputBindings : InputBindings
  deriving DecidableEq

/-- The zustand store state (`GameStore` interface, `store.ts` lines 16-85,
data fields only; the actions are modelled as the functions below). -/
structure GameStore where
  gameState : GameState
  score : ℤ
  highScore : ℤ
  platformsCleared : ℕ
  currentSpeed : ℚ
  baseSpeed : ℚ
  lives : ℤ
  maxLives : ℤ
  coins : ℤ
  totalCoinsCollected : ℕ
  currentPattern : GamePattern
  patternPlatformCount : ℕ
  leaderboard : List LeaderboardEntry
  ballSkins : List BallSkin
  backgroundSkins : List BackgroundSkin
  options : GameOptions
  deriving DecidableEq

/-- The data read back from `localStorage` by `loadSavedData`
(`store.ts` lines 88-111), left abstract since persistence is external. -/
structure SavedData where
  coins : ℤ
  highScore : ℤ
  leaderboard : List LeaderboardEntry
  ballSkins : List BallSkin
  backgroundSkins : List BackgroundSkin
  options : GameOptions
  deriving DecidableEq

/-- The initial store state built by `create` (`store.ts` lines 115-136). -/
def initialStore (saved : SavedData) : GameStore where
  gameState := .MENU
  score := 0
  highScore := saved.highScore
  platformsCleared := 0
  currentSpeed := 1
  baseSpeed := 18
  lives := 1
  maxLives := 3
  coins := saved.coins
  totalCoinsCollected := 0
  currentPattern := .FLAT_WITH_OBSTACLES
  patternPlatformCount := 0
  leaderboard := saved.leaderboard
  ballSkins := saved.ballSkins
  backgroundSkins := saved.backgroundSkins
  options := saved.options

/-- Transcribes `setGameState` (`store.ts` line 139). -/
def setGameState (g : GameState) (s : GameStore) : GameStore :=
  { s with gameState := g }

/-- Transcribes `incrementPlatformsCleared` (`store.ts` lines 158-191): bumps the platform
counters, switches the pattern every 20 platforms, recomputes the speed from
the new total, and adds one point to the score (ratcheting the high score). -/
def incrementPlatformsCleared (s : GameStore) : GameStore :=
  let newCount := s.platformsCleared + 1
  let newPatternCount := s.patternPlatformCount + 1
  let newPattern :=
    if newPatternCount ≥ 20 then
      (if s.currentPattern = GamePattern.FLAT_WITH_OBSTACLES then
        GamePattern.NON_FLAT_NO_OBSTACLES else GamePattern.FLAT_WITH_OBSTACLES)
    else s.currentPattern
  let resetPatternCount := if newPatternCount ≥ 20 then 0 else newPatternCount
  let speedIncrease : ℚ := (newCount / 10 : ℕ) * (0.05 : ℚ)
  let newSpeed : ℚ := min (1 + speedIncrease) 2
  let newScore := s.score + 1
  let newHighScore := max s.highScore newScore
  { s with
      platformsCleared := newCount
      patternPlatformCount := resetPatternCount
      currentPattern := newPattern
      score := newScore
      highScore := newHighScore
      currentSpeed := newSpeed }

/-- Transcribes `resetGame` (`store.ts` lines 193-201). -/
def resetGame (s : GameStore) : GameStore :=
  { s with
      score := 0
      platformsCleared := 0
      lives := 1
      totalCoinsCollected := 0
      currentSpeed := 1
      currentPattern := GamePattern.FLAT_WITH_OBSTACLES
      patternPlatformCount := 0 }

/-- Transcribes `loseLife` (`store.ts` lines 208-216): returns the "game over" flag
together with the updated store. -/
def loseLife (s : GameStore) : Bool × GameStore :=
  if s.lives ≤ 1 then (true, { s with lives := 0 })
  else (false, { s with lives := s.lives - 1 })

/-- Transcribes `collectCoin` (`store.ts` lines 219-226). -/
def collectCoin (s : GameStore) : GameStore :=
  { s with coins := s.coins + 1, totalCoinsCollected := s.totalCoinsCollected + 1 }

/-- Transcribes `spendCoins` (`store.ts` lines 228-237). -/
def spendCoins (amount : ℤ) (s : GameStore) : Bool × GameStore :=
  if s.coins ≥ amount then (true, { s with coins := s.coins - amount })
  else (false, s)

/-- Transcribes `updateSpeed` (`store.ts` lines 240-248): recomputes the speed from
`platformsCleared`, writing it only when it changed. -/
def updateSpeed (s : GameStore) : GameStore :=
  let speedIncrease : ℚ := (s.platformsCleared / 10 : ℕ) * (0.05 : ℚ)
  let newSpeed : ℚ := min (1 + speedIncrease) 2
  if newSpeed ≠ s.currentSpeed then { s with currentSpeed := newSpeed } else s

/-- Transcribes `purchaseBallSkin` (`store.ts` lines 265-279): fails on a missing or
already-owned skin, otherwise pays through `spendCoins` and marks the skin
owned on success. -/
def purchaseBallSkin (skinId : String) (s : GameStore) : Bool × GameStore :=
  match s.ballSkins.find? (fun sk => sk.id == skinId) with
  | none => (false, s)
  | some skin =>
    if skin.owned then (false, s)
    else
      let paid := spendCoins skin.price s
      if paid.1 then
        let updatedSkins := s.ballSkins.map
          (fun sk => if sk.id == skinId then { sk with owned := true } else sk)
        (true, { paid.2 with ballSkins := updatedSkins })
      else (false, paid.2)

/-- Transcribes `purchaseBackgroundSkin` (`store.ts` lines 281-295). -/
def purchaseBackgroundSkin (skinId : String) (s : GameStore) : Bool × GameStore :=
  match s.backgroundSkins.find? (fun sk => sk.id == skinId) with
  | none => (false, s)
  | some skin =>
    if skin.owned then (false, s)
    else
      let paid := spendCoins skin.price s
      if paid.1 then
        let updatedSkins := s.backgroundSkins.map
          (fun sk => if sk.id == skinId then { sk with owned := true } else sk)
        (true, { paid.2 with backgroundSkins := updatedSkins })
      else (false, paid.2)

/-- Descending-by-score comparison used by `addToLeaderboard`
(the comparator `(a, b) => b.score - a.score` of `store.ts` line 362). -/
def leaderboardLe (a b : LeaderboardEntry) : Bool :=
  b.score ≤ a.score

/-- The rank-assignment pass of `addToLeaderboard`
(`.map((entry, index) => ({ ...entry, rank: index + 1 }))`, line 364),
with `i` the rank of the first element. -/
def assignRanks : ℕ → List LeaderboardEntry → List LeaderboardEntry
  | _, [] => []
  | i, e :: t => { e with rank := i } :: assignRanks (i + 1) t

/-- Transcribes `addToLeaderboard` (`store.ts` lines 354-368): appends the new entry,
sorts descending by score (JavaScript sort is stable), keeps the first 10 and
re-ranks them 1..n.  The entry date is an external input (`new Date()`). -/
def addToLeaderboard (score : ℤ) (date : String) (s : GameStore) : GameStore :=
  let newEntry : LeaderboardEntry := { rank := 0, score := score, date := date }
  let updatedLeaderboard :=
    assignRanks 1 (((s.leaderboard ++ [newEntry]).mergeSort leaderboardLe).take 10)
  { s with leaderboard := updatedLeaderboard }

/-! ## Track geometry and generation (`TrackManager`)

World positions live in `ℝ` because the forward direction of a segment is
obtained from trigonometric functions of its slope and yaw; all random draws,
branch conditions and local offsets are exact rationals. -/

/-- A 3D world-space vector (`THREE.Vector3`). -/
structure Vec3 where
  x : ℝ
  y : ℝ
  z : ℝ

/-- Vector addition (`Vector3.add`). -/
def vadd (a b : Vec3) : Vec3 := ⟨a.x + b.x, a.y + b.y, a.z + b.z⟩

/-- Vector subtraction (`Vector3.sub`). -/
def vsub (a b : Vec3) : Vec3 := ⟨a.x - b.x, a.y - b.y, a.z - b.z⟩

/-- Scalar multiple (`Vector3.multiplyScalar`). -/
def vsmul (r : ℝ) (a : Vec3) : Vec3 := ⟨r * a.x, r * a.y, r * a.z⟩

/-- The forward direction of a segment:
`new Vector3(0, 0, -1).applyEuler(new Euler(slope, yaw, 0, 'YXZ'))`
(`generateSegment`, track manager lines 382-383).  With the YXZ order the
rotation matrix is `R_Y(yaw) * R_X(slope)` applied to `(0, 0, -1)`. -/
noncomputable def fwdVec (slope yaw : ℚ) : Vec3 :=
  ⟨-(Real.cos slope * Real.sin yaw), Real.sin slope, -(Real.cos slope * Real.cos yaw)⟩

/-- Obstacle kind (`type: 'static' | 'moving'`). -/
inductive ObstacleKind
  | static | moving
  deriving DecidableEq

/-- Models `ObstacleData` of `types.ts` as produced by `generateSegment`:
a local-frame position and size, and oscillation parameters when moving. -/
structure ObstacleData where
  id : String
  position : ℚ × ℚ × ℚ
  size : ℚ × ℚ × ℚ
  type : ObstacleKind
  movingDirection : Option (ℚ × ℚ × ℚ)
  movingSpeed : Option ℚ
  movingRange : Option ℚ
  deriving DecidableEq

/-- Models `CoinData` of `types.ts`: identity and local position; the `collected`
flag is never consulted (collection state lives in the collected-id sets). -/
structure CoinData where
  id : String
  position : ℚ × ℚ × ℚ
  collected : Bool
  deriving DecidableEq

/-- Models `HeartData` of `types.ts`. -/
structure HeartData where
  id : String
  position : ℚ × ℚ × ℚ
  collected : Bool
  deriving DecidableEq

/-- Models `SegmentData` of `types.ts`: world center, dimensions, orientation,
variant tag and contents. -/
structure SegmentData where
  id : String
  position : Vec3
  length : ℚ
  width : ℚ
  slope : ℚ
  bank : ℚ
  yaw : ℚ
  type : SegmentType
  obstacles : List ObstacleData
  coin : Option CoinData
  heart : Option HeartData
  platformIndex : ℕ

/-- The variant draw and per-variant constants of `generateSegment`
(track manager lines 338-380): type selection from the first draw, then the
`switch` assigning width/length/slope/bank/yaw (STEEP and BANKED/TURN each
consume one further draw).  `k` is the next unused draw index. -/
structure SegParams where
  type : SegmentType
  width : ℚ
  length : ℚ
  slope : ℚ
  bank : ℚ
  yaw : ℚ
  k : ℕ

/-- Transcription of the variant-selection prefix of `generateSegment`. -/
def segTypeParams (pattern : GamePattern) (rng : ℕ → ℚ) (k0 : ℕ) (index : ℕ) :
    SegParams :=
  let rand := rng k0
  let k := k0 + 1
  let type : SegmentType :=
    if pattern = GamePattern.FLAT_WITH_OBSTACLES then
      (if index > 8 ∧ rand < 0.15 then .NARROW else .NORMAL)
    else
      (if index > 8 then
        (if rand < 0.25 then .STEEP
         else if rand < 0.5 then .TURN
         else if rand < 0.7 then .BANKED
         else .NORMAL)
       else .NORMAL)
  let slope0 : ℚ := if pattern = GamePattern.FLAT_WITH_OBSTACLES then -0.1 else -0.15
  match type with
  | .STEEP =>
    { type := .STEEP, width := 16, length := 80, slope := -0.5 - rng k * 0.25,
      bank := 0, yaw := 0, k := k + 1 }
  | .NARROW =>
    { type := .NARROW, width := 6, length := 65, slope := slope0,
      bank := 0, yaw := 0, k := k }
  | .BANKED =>
    { type := .BANKED, width := 22, length := 55, slope := slope0,
      bank := if rng k > 0.5 then 0.4 else -0.4, yaw := 0, k := k + 1 }
  | .TURN =>
    { type := .TURN, width := 20, length := 70, slope := slope0,
      bank := 0, yaw := if rng k > 0.5 then 0.3 else -0.3, k := k + 1 }
  | .NORMAL =>
    { type := .NORMAL, width := 16, length := 55, slope := slope0,
      bank := 0, yaw := 0, k := k }

/-- Tail of one obstacle-loop iteration after the center-lane skip check:
the `isMoving` draw and the pushed `ObstacleData`
(track manager lines 405-415). -/
def genObstacleRest (rng : ℕ → ℚ) (k : ℕ) (index i : ℕ) (ox oz : ℚ) :
    Option ObstacleData × ℕ :=
  let isMoving := rng k > 0.8
  if isMoving then
    (some { id := "obs-" ++ toString index ++ "-" ++ toString i,
            position := (ox, 6.25, oz), size := (2.5, 2.5, 2.5),
            type := .moving,
            movingDirection := some (1, 0, 0),
            movingSpeed := some (1.5 + rng (k + 1) * 2),
            movingRange := some (2 + rng (k + 2) * 3) }, k + 3)
  else
    (some { id := "obs-" ++ toString index ++ "-" ++ toString i,
            position := (ox, 6.25, oz), size := (2.5, 2.5, 2.5),
            type := .static,
            movingDirection := none, movingSpeed := none, movingRange := none },
     k + 1)

/-- One iteration of the obstacle loop (track manager lines 395-416):
`oz` draw, lane draw, jitter draw, then the probabilistic center-lane skip
(`continue` — which draws only when the lane is the center lane). -/
def genObstacle (rng : ℕ → ℚ) (k : ℕ) (index i : ℕ) (width length : ℚ) :
    Option ObstacleData × ℕ :=
  let oz := (rng k - 0.5) * length * 0.8
  let lane : ℤ := ⌊rng (k + 1) * 3⌋
  let ox0 : ℚ := if lane = 0 then -(width / 2.8) else if lane = 2 then width / 2.8 else 0
  let ox := ox0 + (rng (k + 2) - 0.5) * 2
  if lane = 1 then
    (if rng (k + 3) > 0.4 then (none, k + 4)
     else genObstacleRest rng (k + 4) index i ox oz)
  else genObstacleRest rng (k + 3) index i ox oz

/-- The obstacle `for` loop: `n` remaining iterations, current loop index `i`,
threading the draw counter; skipped iterations contribute nothing. -/
def genObstacleLoop (rng : ℕ → ℚ) (index : ℕ) (width length : ℚ) :
    ℕ → ℕ → ℕ → List ObstacleData × ℕ
  | 0, _i, k => ([], k)
  | n + 1, i, k =>
    let r := genObstacle rng k index i width length
    let rest := genObstacleLoop rng index width length n (i + 1) r.2
    (r.1.toList ++ rest.1, rest.2)

/-- Transcribes `generateSegment` (track manager lines 336-452): draws the variant,
derives the forward direction from (slope, yaw), places the center half a
length past the cursor and returns the advanced cursor (`end`), generates
obstacles only in the flat pattern for indices above 5 on non-narrow
segments, one coin per segment, and a heart on positive multiples of 20.
(The source also assigns `platformCounter.current = index` here; that ref is
accounted for in `initTrack` and the frame loop.) -/
noncomputable def generateSegment (pattern : GamePattern) (rng : ℕ → ℚ)
    (k0 : ℕ) (index : ℕ) (cursor : Vec3) : SegmentData × Vec3 × ℕ :=
  let p := segTypeParams pattern rng k0 index
  let fwd := fwdVec p.slope p.yaw
  let center := vadd cursor (vsmul ((p.length : ℝ) / 2) fwd)
  let endPos := vadd cursor (vsmul (p.length : ℝ) fwd)
  let obs :=
    if pattern = GamePattern.FLAT_WITH_OBSTACLES ∧ index > 5 then
      (if p.width < 9 then ([], p.k)
       else
         let count := (⌊rng p.k * 3⌋).toNat
         genObstacleLoop rng index p.width p.length count 0 (p.k + 1))
    else ([], p.k)
  let k1 := obs.2
  let coin : CoinData :=
    { id := "coin-" ++ toString index,
      position := ((rng k1 - 0.5) * (p.width * 0.6), 6.5,
                   (rng (k1 + 1) - 0.5) * (p.length * 0.5)),
      collected := false }
  let k2 := k1 + 2
  let heart : Option HeartData :=
    if index > 0 ∧ index % 20 = 0 then
      some { id := "heart-" ++ toString index, position := (0, 7, 0), collected := false }
    else none
  ({ id := "seg-" ++ toString index ++ "-" ++ toString (rng k2),
     position := center, length := p.length, width := p.width, slope := p.slope,
     bank := p.bank, yaw := p.yaw, type := p.type, obstacles := obs.1,
     coin := some coin, heart := heart, platformIndex := index },
   endPos, k2 + 1)

/-- End of a segment as recomputed from its own stored data:
`center + forward * (length / 2)`. -/
noncomputable def segEnd (s : SegmentData) : Vec3 :=
  vadd s.position (vsmul ((s.length : ℝ) / 2) (fwdVec s.slope s.yaw))

/-- Start of a segment as recomputed from its own stored data:
`center - forward * (length / 2)`. -/
noncomputable def segStart (s : SegmentData) : Vec3 :=
  vsub s.position (vsmul ((s.length : ℝ) / 2) (fwdVec s.slope s.yaw))

/-- A chain of `n` segments produced by iterating `generateSegment` from
index `i`, threading the cursor exactly as the frame-loop append path does
(`nextStartPos.current.copy(end)`). -/
noncomputable def genChain (pattern : GamePattern) (rng : ℕ → ℚ) :
    ℕ → ℕ → ℕ → Vec3 → List SegmentData × Vec3 × ℕ
  | 0, _i, k, cur => ([], cur, k)
  | n + 1, i, k, cur =>
    let g := generateSegment pattern rng k i cur
    let rest := genChain pattern rng n (i + 1) g.2.2 g.2.1
    (g.1 :: rest.1, rest.2.1, rest.2.2)

/-- The post-generation override `initTrack` applies to the first six
segments of a fresh window (track manager lines 463-469): forced NORMAL
geometry with no obstacles.  Note it rewrites the stored slope/yaw but not
the already-computed world position. -/
def initOverride (seg : SegmentData) : SegmentData :=
  { seg with type := .NORMAL, width := 16, bank := 0, yaw := 0,
             slope := -0.1, obstacles := [] }

/-- The generation loop of `initTrack` (track manager lines 460-472):
like `genChain` but overriding the segments with loop index below 6. -/
noncomputable def initLoop (pattern : GamePattern) (rng : ℕ → ℚ) :
    ℕ → ℕ → ℕ → Vec3 → List SegmentData × Vec3 × ℕ
  | 0, _i, k, cur => ([], cur, k)
  | n + 1, i, k, cur =>
    let g := generateSegment pattern rng k i cur
    let seg := if i < 6 then initOverride g.1 else g.1
    let rest := initLoop pattern rng n (i + 1) g.2.2 g.2.1
    (seg :: rest.1, rest.2.1, rest.2.2)

/-- The mutable state owned by `TrackManager` (its `useState`/`useRef`
hooks): the live window, the collected-id sets, the generation cursor and
the platform counters. -/
structure TrackState where
  segments : List SegmentData
  collectedCoins : List String
  collectedHearts : List String
  nextStartPos : Vec3
  platformCounter : ℕ
  lastClearedPlatform : ℤ

/-- Transcribes `initTrack` (track manager lines 454-474): cursor reset to the origin,
counters reset, collected-id sets cleared, and a fresh 12-segment window
generated from the origin with the first six forced safe.  `platformCounter`
ends at 11 because `generateSegment` assigns it the index of the last
generated segment. -/
noncomputable def initTrack (pattern : GamePattern) (rng : ℕ → ℚ) : TrackState :=
  let r := initLoop pattern rng 12 0 0 ⟨0, 0, 0⟩
  { segments := r.1, collectedCoins := [], collectedHearts := [],
    nextStartPos := r.2.1, platformCounter := 11, lastClearedPlatform := -1 }

/-- The `useEffect` of `TrackManager` (lines 476-482): reseed when entering
MENU or on the edge GAME_OVER → PLAYING, with the pattern read from the
store at generation time. -/
noncomputable def trackLifecycleEffect (prev cur : GameState)
    (pattern : GamePattern) (rng : ℕ → ℚ) (t : TrackState) : TrackState :=
  if cur = GameState.MENU ∨ (prev = GameState.GAME_OVER ∧ cur = GameState.PLAYING) then
    initTrack pattern rng
  else t

/-- Transcribes `handleRetry` of the game-over screen: `resetGame()` then
`setGameState(PLAYING)`. -/
def handleRetry (s : GameStore) : GameStore :=
  setGameState .PLAYING (resetGame s)

/-- The whole retry transition: the store reset plus the edge-triggered
track reseed it causes (the effect sees the previous lifecycle state as
GAME_OVER and the new one as PLAYING, and generates with the store's
already-reset pattern). -/
noncomputable def retryTransition (rng : ℕ → ℚ) (s : GameStore) (t : TrackState) :
    GameStore × TrackState :=
  let s2 := handleRetry s
  (s2, trackLifecycleEffect s.gameState s2.gameState s2.currentPattern rng t)

/-! ## Per-frame coin collection (`TrackManager` frame loop, lines 526-563) -/

/-- The coin part of the collection loop: for each segment whose coin id is
not yet in the collected set, run the proximity test; hits are accumulated in
order (`coinsToAdd`).  The proximity predicate (distance of the estimated
player position to the coin world position below 3.5) is abstracted as
`hitCoin`, since it varies with the player position each tick; the skip
guard `!collectedCoins.has(seg.coin.id)` is transcribed exactly. -/
def collectScan (hitCoin : SegmentData → Bool) (collected : List String) :
    List SegmentData → List String
  | [] => []
  | seg :: rest =>
    match seg.coin with
    | none => collectScan hitCoin collected rest
    | some c =>
      if c.id ∈ collected then collectScan hitCoin collected rest
      else if hitCoin seg then c.id :: collectScan hitCoin collected rest
      else collectScan hitCoin collected rest

/-- The evolving state of the coin-collection subsystem across ticks:
the collected-id set, the store (coins/`totalCoinsCollected`), and the
accumulated collect events (one `collectCoin()` call per event). -/
structure CoinRunState where
  collectedCoins : List String
  store : GameStore
  events : List String

/-- One frame of coin collection: scan the window, call `collectCoin` once
per hit, then merge the hit ids into the collected set (the source merges
into a `Set`, which is only ever queried by membership). -/
def coinTick (hitCoin : SegmentData → Bool) (segs : List SegmentData)
    (st : CoinRunState) : CoinRunState :=
  let coinsToAdd := collectScan hitCoin st.collectedCoins segs
  { collectedCoins := st.collectedCoins ++ coinsToAdd,
    store := coinsToAdd.foldl (fun s _ => collectCoin s) st.store,
    events := st.events ++ coinsToAdd }

/-- A sequence of frames, each with its own proximity outcome and live
window. -/
def runCoinTicks (ticks : List ((SegmentData → Bool) × List SegmentData))
    (st : CoinRunState) : CoinRunState :=
  ticks.foldl (fun st tk => coinTick tk.1 tk.2 st) st

/-! ## Scoring trace model (`Player.tsx` frame loop and platform credits) -/

/-- The two score-affecting run events: a frame's displacement-based update
(`Player.tsx` lines 131-133, carrying the primary-axis position `z`), and a
platform-clear credit (`incrementPlatformsCleared`). -/
inductive RunEvent
  | frameScore (z : ℚ)
  | platformClear

/-- Apply one run event to the store.  The frame update is
`setState(score := Math.max(score, Math.floor(Math.abs(pos.z))))` — it
touches only `score`. -/
def applyRunEvent : RunEvent → GameStore → GameStore
  | .frameScore z, s => { s with score := max s.score ⌊|z|⌋ }
  | .platformClear, s => incrementPlatformsCleared s

/-- Run a trace of score-affecting events. -/
def runEvents (es : List RunEvent) (s : GameStore) : GameStore :=
  es.foldl (fun s e => applyRunEvent e s) s

/-- The displacement-based scoring accumulation of a trace: the maximum of
`floor(|z|)` over its frame updates (0 when there are none). -/
def dispSignal : List RunEvent → ℤ
  | [] => 0
  | .frameScore z :: es => max ⌊|z|⌋ (dispSignal es)
  | .platformClear :: es => dispSignal es

/-- The platform-clear accumulation of a trace: its number of credits. -/
def clearCount : List RunEvent → ℕ
  | [] => 0
  | .frameScore _ :: es => clearCount es
  | .platformClear :: es => clearCount es + 1

/-! ## Pause wiring (`App.tsx` and the pause screen) -/

/-- The names of the actions the store object literal actually defines
(`store.ts` lines 139-368). -/
def gameStoreActionNames : List String :=
  ["setGameState", "setScore", "incrementScore", "incrementPlatformsCleared",
   "resetGame", "addLife", "loseLife", "collectCoin", "spendCoins",
   "updateSpeed", "getSpeedMultiplier", "switchPattern", "purchaseBallSkin",
   "purchaseBackgroundSkin", "selectBallSkin", "selectBackgroundSkin",
   "getCurrentBallSkin", "getCurrentBackgroundSkin", "setDifficulty",
   "setMusicVolume", "setSfxVolume", "setInputBinding", "addToLeaderboard"]

/-- The store member the pause handlers invoke: `App.tsx` line 8 destructures
`togglePause` from `useGameStore()` and the keydown / visibility-change
handlers call it; the pause screen's RESUME button does the same. -/
def pauseHandlerTarget : String := "togglePause"

/-! ## Concrete fixtures used by the witness theorems -/

/-- The default options object (`store.ts` lines 94-101). -/
def sampleOptions : GameOptions where
  difficulty := .NORMAL
  ballSkinId := "default"
  backgroundSkinId := "default"
  musicVolume := 0.7
  sfxVolume := 0.8
  inputBindings := { left := ["ArrowLeft", "KeyA"], right := ["ArrowRight", "KeyD"], jump := ["Space"] }

/-- A fresh persistence snapshot (nothing saved yet). -/
def sampleSaved : SavedData where
  coins := 0
  highScore := 0
  leaderboard := []
  ballSkins := []
  backgroundSkins := []
  options := sampleOptions

/-- The store right after `create` with a fresh persistence snapshot. -/
def sampleStore : GameStore := initialStore sampleSaved

/-- A store as it stands on the game-over screen of some run. -/
def sampleGameOver : GameStore :=
  { sampleStore with gameState := .GAME_OVER, score := 42, highScore := 42,
                     coins := 7, lives := 0, platformsCleared := 42,
                     currentPattern := .NON_FLAT_NO_OBSTACLES,
                     patternPlatformCount := 2, currentSpeed := 1.2,
                     totalCoinsCollected := 3 }

/-- A stand-in track state for the retry witness. -/
def sampleTrack : TrackState where
  segments := []
  collectedCoins := ["coin-3"]
  collectedHearts := []
  nextStartPos := ⟨0, 0, 0⟩
  platformCounter := 42
  lastClearedPlatform := 41

/-! ## C3 — `loseLife` -/

/-- C3: `loseLife()` called when lives=1 sets lives to 0 and reports
terminal; called when lives>1 it decrements lives by exactly 1 and reports
non-terminal; the resulting lives count is never negative; and `loseLife`
never changes the lifecycle state. -/
theorem loseLife_spec (s : GameStore) :
    (s.lives = 1 → (loseLife s).1 = true ∧ (loseLife s).2.lives = 0) ∧
    (1 < s.lives → (loseLife s).1 = false ∧ (loseLife s).2.lives = s.lives - 1) ∧
    0 ≤ (loseLife s).2.lives ∧
    (loseLife s).2.gameState = s.gameState := by
  unfold loseLife
  by_cases h : s.lives ≤ 1
  · simp [h]
  · simp [h]
    omega

/-- Witness for `loseLife_spec` at the initial store (lives = 1). -/
theorem loseLife_spec_witness :
    sampleStore.lives = 1 ∧
    ((loseLife sampleStore).1 = true ∧ (loseLife sampleStore).2.lives = 0) :=
  ⟨by decide, (loseLife_spec sampleStore).1 (by decide)⟩

/-! ## C9 — invalid purchases and spends -/

/-- If `spendCoins` reports failure it did not touch the store. -/
theorem spendCoins_fail_frame (amount : ℤ) (s : GameStore)
    (h : (spendCoins amount s).1 = false) : (spendCoins amount s).2 = s := by
  unfold spendCoins at h ⊢
  by_cases hc : s.coins ≥ amount <;> simp [hc] at h ⊢

/-- If `purchaseBallSkin` reports failure it did not touch the store. -/
theorem purchaseBallSkin_fail_frame (skinId : String) (s : GameStore)
    (h : (purchaseBallSkin skinId s).1 = false) :
    (purchaseBallSkin skinId s).2 = s := by
  unfold purchaseBallSkin at h ⊢
  cases hf : s.ballSkins.find? (fun sk => sk.id == skinId) with
  | none => simp [hf]
  | some skin =>
    simp only [hf] at h ⊢
    by_cases ho : skin.owned
    · simp [ho]
    · by_cases hp : (spendCoins skin.price s).1
      · simp [ho, hp] at h
      · have hp' : (spendCoins skin.price s).1 = false := by simpa using hp
        simp [ho, hp', spendCoins_fail_frame skin.price s hp']

/-- If `purchaseBackgroundSkin` reports failure it did not touch the store. -/
theorem purchaseBackgroundSkin_fail_frame (skinId : String) (s : GameStore)
    (h : (purchaseBackgroundSkin skinId s).1 = false) :
    (purchaseBackgroundSkin skinId s).2 = s := by
  unfold purchaseBackgroundSkin at h ⊢
  cases hf : s.backgroundSkins.find? (fun sk => sk.id == skinId) with
  | none => simp [hf]
  | some skin =>
    simp only [hf] at h ⊢
    by_cases ho : skin.owned
    · simp [ho]
    · by_cases hp : (spendCoins skin.price s).1
      · simp [ho, hp] at h
      · have hp' : (spendCoins skin.price s).1 = false := by simpa using hp
        simp [ho, hp', spendCoins_fail_frame skin.price s hp']

/-- C9: an invalid spend or purchase — insufficient funds, a missing skin,
an already-owned skin, or affordable-check failure — reports `false`, and
whenever any of the three operations reports `false` the store (coins, skin
lists, options, everything) is left exactly as it was. -/
theorem invalid_purchase_no_mutation (s : GameStore) (amount : ℤ) (skinId : String) :
    (s.coins < amount →
      (spendCoins amount s).1 = false ∧ (spendCoins amount s).2 = s) ∧
    ((s.ballSkins.find? (fun sk => sk.id == skinId) = none ∨
      (∃ skin, s.ballSkins.find? (fun sk => sk.id == skinId) = some skin ∧
        (skin.owned = true ∨ s.coins < skin.price))) →
      (purchaseBallSkin skinId s).1 = false) ∧
    ((s.backgroundSkins.find? (fun sk => sk.id == skinId) = none ∨
      (∃ skin, s.backgroundSkins.find? (fun sk => sk.id == skinId) = some skin ∧
        (skin.owned = true ∨ s.coins < skin.price))) →
      (purchaseBackgroundSkin skinId s).1 = false) ∧
    ((spendCoins amount s).1 = false → (spendCoins amount s).2 = s) ∧
    ((purchaseBallSkin skinId s).1 = false → (purchaseBallSkin skinId s).2 = s) ∧
    ((purchaseBackgroundSkin skinId s).1 = false →
      (purchaseBackgroundSkin skinId s).2 = s) := by
  refine ⟨?_, ?_, ?_, spendCoins_fail_frame amount s,
    purchaseBallSkin_fail_frame skinId s, purchaseBackgroundSkin_fail_frame skinId s⟩
  · intro hlt
    have hc : ¬ s.coins ≥ amount := by omega
    unfold spendCoins
    simp [hc]
  · rintro (hf | ⟨skin, hf, hbad⟩)
    · unfold purchaseBallSkin
      simp [hf]
    · unfold purchaseBallSkin
      rcases hbad with ho | hprice
      · simp [hf, ho]
      · have hc : ¬ s.coins ≥ skin.price := by omega
        have hp : (spendCoins skin.price s).1 = false := by
          unfold spendCoins; simp [hc]
        rcases Bool.eq_false_or_eq_true skin.owned with ho | ho <;>
          simp [hf, ho, hp]
  · rintro (hf | ⟨skin, hf, hbad⟩)
    · unfold purchaseBackgroundSkin
      simp [hf]
    · unfold purchaseBackgroundSkin
      rcases hbad with ho | hprice
      · simp [hf, ho]
      · have hc : ¬ s.coins ≥ skin.price := by omega
        have hp : (spendCoins skin.price s).1 = false := by
          unfold spendCoins; simp [hc]
        rcases Bool.eq_false_or_eq_true skin.owned with ho | ho <;>
          simp [hf, ho, hp]

/-- Witness for `invalid_purchase_no_mutation`: spending 5 coins from an
empty wallet fails and leaves the store untouched. -/
theorem invalid_purchase_no_mutation_witness :
    sampleStore.coins < 5 ∧
    ((spendCoins 5 sampleStore).1 = false ∧ (spendCoins 5 sampleStore).2 = sampleStore) :=
  ⟨by decide, (invalid_purchase_no_mutation sampleStore 5 "gold").1 (by decide)⟩

/-! ## C2 — the pause toggle -/

/-- C2 (code bug): the pause handlers of `App.tsx` and the pause screen
invoke a store member named `togglePause`, but the store object defines no
action of that name (and the `GameStore` interface declares none), so no
PLAYING ↔ PAUSED toggle operation exists on the store. -/
theorem togglePause_not_in_store :
    pauseHandlerTarget ∉ gameStoreActionNames := by decide

/-! ## C5 — the speed function -/

/-- The speed function as the spec words it:
`min(1.0 + floor(platformsCleared / 10) * 0.05, 2.0)`. -/
def claimSpeed (n : ℕ) : ℚ := min (1 + (n / 10 : ℕ) * (0.05 : ℚ)) 2

/-- C5: after either call site runs — the per-tick `updateSpeed` hook or the
platform-clear credit path inside `incrementPlatformsCleared` — the stored
speed equals `claimSpeed` of the (new) platform count, so both sites compute
the same pure function of `platformsCleared`; that function is non-decreasing
and takes the values 1.0, 1.05 and 2.0 at 0, 10 and 200. -/
theorem speed_pure_function_of_cleared (s : GameStore) :
    (updateSpeed s).currentSpeed = claimSpeed s.platformsCleared ∧
    (incrementPlatformsCleared s).currentSpeed =
      claimSpeed ((incrementPlatformsCleared s).platformsCleared) ∧
    (∀ n m : ℕ, n ≤ m → claimSpeed n ≤ claimSpeed m) ∧
    claimSpeed 0 = 1 ∧ claimSpeed 10 = 1.05 ∧ claimSpeed 200 = 2 := by
  refine ⟨?_, ?_, ?_, by norm_num [claimSpeed], by norm_num [claimSpeed],
    by norm_num [claimSpeed]⟩
  · simp only [updateSpeed, claimSpeed]
    split
    · rfl
    · rename_i h
      exact (not_not.1 h).symm
  · unfold incrementPlatformsCleared claimSpeed
    simp
  · intro n m hnm
    unfold claimSpeed
    have h10 : n / 10 ≤ m / 10 := Nat.div_le_div_right hnm
    have : ((n / 10 : ℕ) : ℚ) * 0.05 ≤ ((m / 10 : ℕ) : ℚ) * 0.05 := by
      have := (Nat.cast_le (α := ℚ)).2 h10
      nlinarith
    exact min_le_min (by linarith) le_rfl

/-- Witness for `speed_pure_function_of_cleared` at the initial store and at
the pair 3 ≤ 25. -/
theorem speed_pure_function_witness :
    (updateSpeed sampleStore).currentSpeed = claimSpeed sampleStore.platformsCleared ∧
    (3 ≤ 25 ∧ claimSpeed 3 ≤ claimSpeed 25) :=
  ⟨(speed_pure_function_of_cleared sampleStore).1,
   by decide, (speed_pure_function_of_cleared sampleStore).2.2.1 3 25 (by decide)⟩

/-! ## C1 — the two scoring accumulations -/

/-- A short run trace: one frame update at primary-axis position 5, then one
platform-clear credit. -/
def cexTrace : List RunEvent := [.frameScore 5, .platformClear]

/-- C1 counterexample: after `cexTrace` the displayed score is 6 — the
platform-clear credit added 1 on top of the already displacement-ratcheted
score — while the max of the two accumulations (displacement signal 5,
1 credit) is 5.  The displayed score is not the max of the two. -/
theorem score_not_max_of_accumulations :
    ¬ (runEvents cexTrace (initialStore sampleSaved)).score =
        max (dispSignal cexTrace) ((clearCount cexTrace : ℕ) : ℤ) := by
  decide

/-- One step of a trace. -/
theorem runEvents_cons (e : RunEvent) (es : List RunEvent) (s : GameStore) :
    runEvents (e :: es) s = runEvents es (applyRunEvent e s) := rfl

/-- The score never decreases along a trace. -/
theorem runEvents_score_mono (es : List RunEvent) (s : GameStore) :
    s.score ≤ (runEvents es s).score := by
  induction es generalizing s with
  | nil => exact le_rfl
  | cons e rest ih =>
    rw [runEvents_cons]
    refine le_trans ?_ (ih (applyRunEvent e s))
    cases e with
    | frameScore z =>
      show s.score ≤ max s.score ⌊|z|⌋
      exact le_max_left _ _
    | platformClear =>
      show s.score ≤ s.score + 1
      omega

/-- Each platform-clear credit adds one on top of the running score. -/
theorem runEvents_clear_bound (es : List RunEvent) (s : GameStore) :
    s.score + (clearCount es : ℤ) ≤ (runEvents es s).score := by
  induction es generalizing s with
  | nil => simp [runEvents, clearCount]
  | cons e rest ih =>
    rw [runEvents_cons]
    have h := ih (applyRunEvent e s)
    cases e with
    | frameScore z =>
      have hsc : (applyRunEvent (.frameScore z) s).score = max s.score ⌊|z|⌋ := rfl
      have hmax : s.score ≤ max s.score ⌊|z|⌋ := le_max_left _ _
      simp only [clearCount]
      omega
    | platformClear =>
      have hsc : (applyRunEvent .platformClear s).score = s.score + 1 := rfl
      simp only [clearCount] at h ⊢
      push_cast at h ⊢
      omega

/-- The displacement accumulation is a lower bound on the score, for any
start state with non-negative score. -/
theorem runEvents_disp_bound (es : List RunEvent) (s : GameStore)
    (h0 : 0 ≤ s.score) : dispSignal es ≤ (runEvents es s).score := by
  induction es generalizing s with
  | nil => simpa [runEvents, dispSignal] using h0
  | cons e rest ih =>
    rw [runEvents_cons]
    cases e with
    | frameScore z =>
      have hz : (0 : ℤ) ≤ ⌊|z|⌋ := Int.floor_nonneg.2 (abs_nonneg z)
      have hsc : (applyRunEvent (.frameScore z) s).score = max s.score ⌊|z|⌋ := rfl
      have h1 := ih (applyRunEvent (.frameScore z) s) (by rw [hsc]; omega)
      have h2 := runEvents_score_mono rest (applyRunEvent (.frameScore z) s)
      rw [hsc] at h2
      simp only [dispSignal]
      refine max_le (le_trans (le_max_right _ _) h2) h1
    | platformClear =>
      have hsc : (applyRunEvent .platformClear s).score = s.score + 1 := rfl
      have h1 := ih (applyRunEvent .platformClear s) (by rw [hsc]; omega)
      simpa [dispSignal] using h1

/-- C1 amended: the two scoring mechanisms do not combine by max — the frame
path ratchets `score := max(score, floor(|z|))` while each platform-clear
credit adds exactly 1 on top of the current (possibly ratcheted) score; the
displayed score therefore dominates both accumulations and can strictly
exceed their max. -/
theorem score_dominates_both_accumulations (saved : SavedData) (es : List RunEvent) :
    dispSignal es ≤ (runEvents es (initialStore saved)).score ∧
    ((clearCount es : ℕ) : ℤ) ≤ (runEvents es (initialStore saved)).score ∧
    (∀ s : GameStore, (applyRunEvent .platformClear s).score = s.score + 1) ∧
    (∀ (s : GameStore) (z : ℚ),
      (applyRunEvent (.frameScore z) s).score = max s.score ⌊|z|⌋) := by
  refine ⟨runEvents_disp_bound es (initialStore saved) (by simp [initialStore]),
    ?_, fun s => rfl, fun s z => rfl⟩
  have h := runEvents_clear_bound es (initialStore saved)
  simpa [initialStore] using h

/-! ## C6 — pattern switching -/

/-- How one platform-clear credit changes the two pattern fields. -/
theorem increment_pattern_step (s : GameStore) :
    (incrementPlatformsCleared s).patternPlatformCount =
      (if s.patternPlatformCount + 1 ≥ 20 then 0 else s.patternPlatformCount + 1) ∧
    (incrementPlatformsCleared s).currentPattern =
      (if s.patternPlatformCount + 1 ≥ 20 then
        (if s.currentPattern = GamePattern.FLAT_WITH_OBSTACLES then
          GamePattern.NON_FLAT_NO_OBSTACLES else GamePattern.FLAT_WITH_OBSTACLES)
       else s.currentPattern) := ⟨rfl, rfl⟩

/-- C6: starting from a fresh store (pattern `FLAT_WITH_OBSTACLES`, counter
0), after `k` platform-clear credits the per-pattern counter reads `k mod 20`
and the pattern is flat exactly when `k / 20` is even — i.e. the pattern
flips exactly on the 20th credit of each window, resetting the counter, and
alternates deterministically between the two modes. -/
theorem pattern_toggles_every_20 (saved : SavedData) (k : ℕ) :
    (incrementPlatformsCleared^[k] (initialStore saved)).patternPlatformCount = k % 20 ∧
    (incrementPlatformsCleared^[k] (initialStore saved)).currentPattern =
      (if k / 20 % 2 = 0 then GamePattern.FLAT_WITH_OBSTACLES
       else GamePattern.NON_FLAT_NO_OBSTACLES) := by
  induction k with
  | zero => exact ⟨rfl, rfl⟩
  | succ k ih =>
    obtain ⟨ihc, ihp⟩ := ih
    rw [Function.iterate_succ_apply']
    obtain ⟨hc, hp⟩ := increment_pattern_step (incrementPlatformsCleared^[k] (initialStore saved))
    rw [ihc] at hc hp
    rw [ihp] at hp
    have hmod : k % 20 < 20 := Nat.mod_lt _ (by omega)
    by_cases h19 : k % 20 = 19
    · have hcond : k % 20 + 1 ≥ 20 := by omega
      have hdiv : (k + 1) / 20 = k / 20 + 1 := by omega
      have hmod1 : (k + 1) % 20 = 0 := by omega
      constructor
      · rw [hc, if_pos hcond, hmod1]
      · rw [hp, if_pos hcond, hdiv]
        by_cases he : k / 20 % 2 = 0
        · have he1 : ¬ (k / 20 + 1) % 2 = 0 := by omega
          rw [if_pos he, if_neg he1]
          simp
        · have he1 : (k / 20 + 1) % 2 = 0 := by omega
          rw [if_neg he, if_pos he1]
          simp
    · have hcond : ¬ k % 20 + 1 ≥ 20 := by omega
      have hdiv : (k + 1) / 20 = k / 20 := by omega
      have hmod1 : (k + 1) % 20 = k % 20 + 1 := by omega
      constructor
      · rw [hc, if_neg hcond, hmod1]
      · rw [hp, if_neg hcond, hdiv]

/-! ## C10 — the leaderboard -/

theorem assignRanks_length (i : ℕ) (l : List LeaderboardEntry) :
    (assignRanks i l).length = l.length := by
  induction l generalizing i with
  | nil => rfl
  | cons e t ih => simp [assignRanks, ih]

theorem assignRanks_map_score (i : ℕ) (l : List LeaderboardEntry) :
    (assignRanks i l).map (fun e => e.score) = l.map (fun e => e.score) := by
  induction l generalizing i with
  | nil => rfl
  | cons e t ih => simp [assignRanks, ih]

theorem assignRanks_get_rank (l : List LeaderboardEntry) :
    ∀ (i j : ℕ) (h : j < (assignRanks i l).length),
      ((assignRanks i l).get ⟨j, h⟩).rank = i + j := by
  induction l with
  | nil => intro i j h; simp [assignRanks] at h
  | cons e t ih =>
    intro i j h
    cases j with
    | zero => simp [assignRanks]
    | succ j =>
      have h' : j + 1 < (({ e with rank := i } : LeaderboardEntry) ::
          assignRanks (i + 1) t).length := by simpa [assignRanks] using h
      calc ((assignRanks i (e :: t)).get ⟨j + 1, h⟩).rank
          = ((assignRanks (i + 1) t).get ⟨j, by
              have := h'; simp at this ⊢; omega⟩).rank := by
            simp [assignRanks, List.get_cons_succ]
        _ = (i + 1) + j := ih (i + 1) j _
        _ = i + (j + 1) := by omega

theorem mem_assignRanks_score (i : ℕ) (l : List LeaderboardEntry)
    (x : LeaderboardEntry) (hx : x ∈ assignRanks i l) :
    ∃ y ∈ l, x.score = y.score := by
  induction l generalizing i with
  | nil => simp [assignRanks] at hx
  | cons e t ih =>
    rcases List.mem_cons.1 (by simpa [assignRanks] using hx) with h | h
    · exact ⟨e, List.mem_cons_self _ _, by simp [h]⟩
    · obtain ⟨y, hy, hxy⟩ := ih (i + 1) h
      exact ⟨y, List.mem_cons_of_mem _ hy, hxy⟩

theorem assignRanks_pairwise (i : ℕ) (l : List LeaderboardEntry)
    (h : l.Pairwise (fun a b => b.score ≤ a.score)) :
    (assignRanks i l).Pairwise (fun a b => b.score ≤ a.score) := by
  induction l generalizing i with
  | nil => simp [assignRanks]
  | cons e t ih =>
    rw [List.pairwise_cons] at h
    refine List.Pairwise.cons ?_ (ih (i + 1) h.2)
    intro x hx
    obtain ⟨y, hy, hxy⟩ := mem_assignRanks_score (i + 1) t x hx
    have := h.1 y hy
    simp only [hxy]
    simpa using this

theorem leaderboardLe_trans : ∀ a b c : LeaderboardEntry,
    leaderboardLe a b = true → leaderboardLe b c = true →
    leaderboardLe a c = true := by
  intro a b c hab hbc
  simp only [leaderboardLe, decide_eq_true_eq] at hab hbc ⊢
  omega

theorem leaderboardLe_total : ∀ a b : LeaderboardEntry,
    (leaderboardLe a b || leaderboardLe b a) = true := by
  intro a b
  simp only [leaderboardLe, Bool.or_eq_true, decide_eq_true_eq]
  omega

theorem addSorted_sorted (l : List LeaderboardEntry) :
    (l.mergeSort leaderboardLe).Pairwise (fun a b => b.score ≤ a.score) := by
  refine (List.sorted_mergeSort leaderboardLe_trans leaderboardLe_total l).imp ?_
  intro a b hab
  simpa [leaderboardLe] using hab

theorem addSorted_mem (lb : List LeaderboardEntry) (e : LeaderboardEntry)
    (hcnt : lb.countP (fun x => e.score ≤ x.score) < 10) :
    e.score ∈ (assignRanks 1 (((lb ++ [e]).mergeSort leaderboardLe).take 10)).map
      (fun x => x.score) := by
  have hsorted := addSorted_sorted (lb ++ [e])
  have hperm : ((lb ++ [e]).mergeSort leaderboardLe).Perm (lb ++ [e]) :=
    List.mergeSort_perm (lb ++ [e]) leaderboardLe
  set l' := (lb ++ [e]).mergeSort leaderboardLe with hl'
  rw [assignRanks_map_score]
  have hmem' : e ∈ l' := hperm.mem_iff.2 (by simp)
  by_cases hlen : l'.length ≤ 10
  · rw [List.take_of_length_le hlen]
    exact List.mem_map.2 ⟨e, hmem', rfl⟩
  · by_contra hno
    push_neg at hlen
    have hT : (l'.take 10).length = 10 := by
      rw [List.length_take]; omega
    have hnotin : e ∉ l'.take 10 := by
      intro hmem
      exact hno (List.mem_map.2 ⟨e, hmem, rfl⟩)
    have hd : e ∈ l'.drop 10 := by
      have hsplit := List.take_append_drop 10 l'
      rcases List.mem_append.1 (by rw [hsplit]; exact hmem') with h | h
      · exact absurd h hnotin
      · exact h
    have hpair2 := hsorted
    rw [← List.take_append_drop 10 l'] at hpair2
    obtain ⟨-, -, hcross⟩ := List.pairwise_append.1 hpair2
    have hall : ∀ a ∈ l'.take 10,
        (fun x : LeaderboardEntry => decide (e.score ≤ x.score)) a = true := by
      intro a ha
      have := hcross a ha e hd
      simpa using this
    have hcount_t :
        (l'.take 10).countP (fun x => e.score ≤ x.score) = 10 := by
      rw [List.countP_eq_length.2 hall, hT]
    have hcount_d :
        0 < (l'.drop 10).countP (fun x => e.score ≤ x.score) :=
      List.countP_pos_iff.2 ⟨e, hd, by simp⟩
    have hsum : l'.countP (fun x => e.score ≤ x.score) =
        (l'.take 10).countP (fun x => e.score ≤ x.score) +
        (l'.drop 10).countP (fun x => e.score ≤ x.score) := by
      conv_lhs => rw [← List.take_append_drop 10 l']
      exact List.countP_append _ _ _
    have hpcount : l'.countP (fun x => e.score ≤ x.score) =
        lb.countP (fun x => e.score ≤ x.score) + 1 := by
      rw [hperm.countP_eq, List.countP_append]
      simp
    omega

/-- C10: after every `addToLeaderboard(score)` call the leaderboard holds at
most 10 entries, sorted in non-increasing score order with rank fields
1..length in that order, and the submitted score appears whenever fewer than
10 of the previous entries score at least as much as it (its rank within the
previous entries plus itself is within the top 10). -/
theorem leaderboard_after_add (s : GameStore) (score : ℤ) (date : String) :
    (addToLeaderboard score date s).leaderboard.length ≤ 10 ∧
    (addToLeaderboard score date s).leaderboard.Pairwise
      (fun a b => b.score ≤ a.score) ∧
    (∀ (j : ℕ) (h : j < (addToLeaderboard score date s).leaderboard.length),
      ((addToLeaderboard score date s).leaderboard.get ⟨j, h⟩).rank = j + 1) ∧
    (s.leaderboard.countP (fun e => score ≤ e.score) < 10 →
      score ∈ (addToLeaderboard score date s).leaderboard.map (fun e => e.score)) := by
  refine ⟨?_, ?_, ?_, ?_⟩
  · show (assignRanks 1 (((s.leaderboard ++
        [({ rank := 0, score := score, date := date } : LeaderboardEntry)]).mergeSort
          leaderboardLe).take 10)).length ≤ 10
    rw [assignRanks_length, List.length_take]
    exact min_le_left _ _
  · show (assignRanks 1 (((s.leaderboard ++
        [({ rank := 0, score := score, date := date } : LeaderboardEntry)]).mergeSort
          leaderboardLe).take 10)).Pairwise (fun a b => b.score ≤ a.score)
    exact assignRanks_pairwise 1 _
      (List.Pairwise.sublist (List.take_sublist 10 _) (addSorted_sorted _))
  · intro j h
    show ((assignRanks 1 (((s.leaderboard ++
        [({ rank := 0, score := score, date := date } : LeaderboardEntry)]).mergeSort
          leaderboardLe).take 10)).get ⟨j, h⟩).rank = j + 1
    rw [assignRanks_get_rank _ 1 j h]
    omega
  · intro hcnt
    exact addSorted_mem s.leaderboard { rank := 0, score := score, date := date } hcnt

/-- Witness for `leaderboard_after_add`: submitting score 7 on an empty
leaderboard puts 7 in the displayed scores. -/
theorem leaderboard_after_add_witness :
    sampleStore.leaderboard.countP (fun e => (7 : ℤ) ≤ e.score) < 10 ∧
    (7 : ℤ) ∈ (addToLeaderboard 7 "2026-10-11" sampleStore).leaderboard.map
      (fun e => e.score) :=
  ⟨by decide, (leaderboard_after_add sampleStore 7 "2026-10-11").2.2.2 (by decide)⟩

/-! ## C8 — idempotent coin collection -/

/-- The coin ids present in a window. -/
def windowCoinIds (segs : List SegmentData) : List String :=
  segs.filterMap (fun seg => Option.map (fun c => c.id) seg.coin)

theorem collectScan_sublist (hit : SegmentData → Bool) (coll : List String)
    (segs : List SegmentData) :
    (collectScan hit coll segs).Sublist (windowCoinIds segs) := by
  induction segs with
  | nil => simp [collectScan, windowCoinIds]
  | cons seg rest ih =>
    simp only [collectScan, windowCoinIds, List.filterMap_cons]
    cases hcoin : seg.coin with
    | none => exact ih
    | some c =>
      by_cases hmem : c.id ∈ coll
      · simp only [if_pos hmem, Option.map_some]
        exact ih.cons _
      · by_cases hhit : hit seg
        · simp only [if_neg hmem, if_pos hhit, Option.map_some]
          exact ih.cons₂ _
        · simp only [if_neg hmem, if_neg hhit, Option.map_some]
          exact ih.cons _

theorem collectScan_disjoint (hit : SegmentData → Bool) (coll : List String)
    (segs : List SegmentData) :
    ∀ a ∈ collectScan hit coll segs, a ∉ coll := by
  induction segs with
  | nil => simp [collectScan]
  | cons seg rest ih =>
    simp only [collectScan]
    cases hcoin : seg.coin with
    | none => exact ih
    | some c =>
      by_cases hmem : c.id ∈ coll
      · simpa [if_pos hmem] using ih
      · by_cases hhit : hit seg
        · simp only [if_neg hmem, if_pos hhit]
          intro a ha
          rcases List.mem_cons.1 ha with rfl | ha
          · exact hmem
          · exact ih a ha
        · simpa [if_neg hmem, if_neg hhit] using ih

theorem foldl_collectCoin (l : List String) (s : GameStore) :
    (l.foldl (fun st _ => collectCoin st) s).coins = s.coins + l.length ∧
    (l.foldl (fun st _ => collectCoin st) s).totalCoinsCollected =
      s.totalCoinsCollected + l.length := by
  induction l generalizing s with
  | nil => simp
  | cons a t ih =>
    obtain ⟨h1, h2⟩ := ih (collectCoin s)
    constructor
    · rw [List.foldl_cons, h1]
      show s.coins + 1 + (t.length : ℤ) = s.coins + ((t.length + 1 : ℕ) : ℤ)
      push_cast
      ring
    · rw [List.foldl_cons, h2]
      show s.totalCoinsCollected + 1 + t.length = s.totalCoinsCollected + (t.length + 1)
      omega

theorem runCoinTicks_delta (ticks : List ((SegmentData → Bool) × List SegmentData))
    (st : CoinRunState)
    (hN : ∀ tk ∈ ticks, (windowCoinIds tk.2).Nodup) :
    ∃ new : List String,
      (runCoinTicks ticks st).events = st.events ++ new ∧
      (runCoinTicks ticks st).collectedCoins = st.collectedCoins ++ new ∧
      new.Nodup ∧
      (∀ a ∈ new, a ∉ st.collectedCoins) ∧
      (runCoinTicks ticks st).store.coins = st.store.coins + new.length ∧
      (runCoinTicks ticks st).store.totalCoinsCollected =
        st.store.totalCoinsCollected + new.length := by
  induction ticks generalizing st with
  | nil => exact ⟨[], by simp [runCoinTicks]⟩
  | cons tk rest ih =>
    have hstep : runCoinTicks (tk :: rest) st = runCoinTicks rest (coinTick tk.1 tk.2 st) := by
      simp [runCoinTicks]
    obtain ⟨hit, segs⟩ := tk
    set toAdd := collectScan hit st.collectedCoins segs with htoAdd
    have hAddNodup : toAdd.Nodup :=
      List.Nodup.sublist (collectScan_sublist hit st.collectedCoins segs)
        (hN _ (List.mem_cons_self _ _))
    have hAddDisj : ∀ a ∈ toAdd, a ∉ st.collectedCoins :=
      collectScan_disjoint hit st.collectedCoins segs
    obtain ⟨new', he', hc', hn', hd', hco', hto'⟩ :=
      ih (coinTick hit segs st) (fun tk htk => hN tk (List.mem_cons_of_mem _ htk))
    have hc1 : (coinTick hit segs st).collectedCoins = st.collectedCoins ++ toAdd := rfl
    have he1 : (coinTick hit segs st).events = st.events ++ toAdd := rfl
    refine ⟨toAdd ++ new', ?_, ?_, ?_, ?_, ?_, ?_⟩
    · rw [hstep, he', he1, List.append_assoc]
    · rw [hstep, hc', hc1, List.append_assoc]
    · refine List.Nodup.append hAddNodup hn' ?_
      intro a haAdd haNew
      have := hd' a haNew
      rw [hc1] at this
      exact this (List.mem_append.2 (Or.inr haAdd))
    · intro a ha
      rcases List.mem_append.1 ha with h | h
      · exact hAddDisj a h
      · intro hmem
        have := hd' a h
        rw [hc1] at this
        exact this (List.mem_append.2 (Or.inl hmem))
    · rw [hstep, hco']
      have := (foldl_collectCoin toAdd st.store).1
      have hcoins : (coinTick hit segs st).store.coins = st.store.coins + toAdd.length := this
      rw [hcoins, List.length_append]
      push_cast
      ring
    · rw [hstep, hto']
      have := (foldl_collectCoin toAdd st.store).2
      have htot : (coinTick hit segs st).store.totalCoinsCollected =
          st.store.totalCoinsCollected + toAdd.length := this
      rw [htot, List.length_append]
      omega

/-- C8: over any sequence of ticks (each with its own window, whose coin ids
are pairwise distinct, and its own proximity outcome), every coin id produces
at most one collect event — an id already in the collected set is skipped
entirely — and `coins` / `totalCoinsCollected` each increase by exactly one
per event: collecting the same coin id twice never double-counts. -/
theorem coin_collection_idempotent
    (ticks : List ((SegmentData → Bool) × List SegmentData))
    (coll0 : List String) (s0 : GameStore)
    (hN : ∀ tk ∈ ticks, (windowCoinIds tk.2).Nodup) :
    (runCoinTicks ticks ⟨coll0, s0, []⟩).events.Nodup ∧
    (∀ a ∈ (runCoinTicks ticks ⟨coll0, s0, []⟩).events, a ∉ coll0) ∧
    (runCoinTicks ticks ⟨coll0, s0, []⟩).collectedCoins =
      coll0 ++ (runCoinTicks ticks ⟨coll0, s0, []⟩).events ∧
    (runCoinTicks ticks ⟨coll0, s0, []⟩).store.coins =
      s0.coins + (runCoinTicks ticks ⟨coll0, s0, []⟩).events.length ∧
    (runCoinTicks ticks ⟨coll0, s0, []⟩).store.totalCoinsCollected =
      s0.totalCoinsCollected + (runCoinTicks ticks ⟨coll0, s0, []⟩).events.length := by
  obtain ⟨new, he, hc, hn, hd, hco, hto⟩ :=
    runCoinTicks_delta ticks ⟨coll0, s0, []⟩ hN
  simp only [List.nil_append] at he
  rw [← he] at hn hd hc hco hto
  exact ⟨hn, hd, hc, hco, hto⟩

/-- A concrete one-coin safe segment for the collection witness. -/
def sampleSegment : SegmentData where
  id := "seg-0-0"
  position := ⟨0, 0, 0⟩
  length := 55
  width := 16
  slope := -0.1
  bank := 0
  yaw := 0
  type := .NORMAL
  obstacles := []
  coin := some { id := "coin-0", position := (0, 6.5, 0), collected := false }
  heart := none
  platformIndex := 0

/-- Two consecutive frames in which the player sits on top of the same coin. -/
def sampleTicks : List ((SegmentData → Bool) × List SegmentData) :=
  [(fun _ => true, [sampleSegment]), (fun _ => true, [sampleSegment])]

/-- Witness for `coin_collection_idempotent`: hitting the same coin on two
consecutive frames yields a duplicate-free event list and exactly one coin
increment per event. -/
theorem coin_collection_idempotent_witness :
    (∀ tk ∈ sampleTicks, (windowCoinIds tk.2).Nodup) ∧
    ((runCoinTicks sampleTicks ⟨[], sampleStore, []⟩).events.Nodup ∧
     (runCoinTicks sampleTicks ⟨[], sampleStore, []⟩).store.coins =
       sampleStore.coins +
         (runCoinTicks sampleTicks ⟨[], sampleStore, []⟩).events.length) :=
  ⟨by decide,
   (coin_collection_idempotent sampleTicks [] sampleStore (by decide)).1,
   (coin_collection_idempotent sampleTicks [] sampleStore (by decide)).2.2.2.1⟩

/-! ## C4 — the retry transition -/

/-- A degenerate draw stream (every `Math.random()` call returns 0,
a legal value of `[0, 1)`). -/
def rng0 : ℕ → ℚ := fun _ => 0

theorem initLoop_length (pattern : GamePattern) (rng : ℕ → ℚ) :
    ∀ (n i k : ℕ) (cur : Vec3), (initLoop pattern rng n i k cur).1.length = n := by
  intro n
  induction n with
  | zero => intro i k cur; rfl
  | succ n ih =>
    intro i k cur
    simp only [initLoop, List.length_cons, ih]

/-- C4: the retry transition (GAME_OVER → PLAYING) resets score, lives,
totalCoinsCollected, pattern, speed and the platform counters to their
initial values, sets the lifecycle state to PLAYING, and changes nothing
else on the store (coins, high score, skins, options, leaderboard are all
preserved by the record update); simultaneously the old track state is
discarded outright and replaced by `initTrack` — collected-item sets
cleared, cleared-platform cursor reset, and a fresh 12-segment window grown
from the origin with the pattern already reset to flat-with-obstacles. -/
theorem retry_resets_and_reseeds (rng : ℕ → ℚ) (s : GameStore) (t : TrackState)
    (hg : s.gameState = GameState.GAME_OVER) :
    retryTransition rng s t =
      ({ s with
          score := 0, platformsCleared := 0, lives := 1,
          totalCoinsCollected := 0, currentSpeed := 1,
          currentPattern := GamePattern.FLAT_WITH_OBSTACLES,
          patternPlatformCount := 0, gameState := GameState.PLAYING },
        initTrack GamePattern.FLAT_WITH_OBSTACLES rng) ∧
    (initTrack GamePattern.FLAT_WITH_OBSTACLES rng).collectedCoins = [] ∧
    (initTrack GamePattern.FLAT_WITH_OBSTACLES rng).collectedHearts = [] ∧
    (initTrack GamePattern.FLAT_WITH_OBSTACLES rng).lastClearedPlatform = -1 ∧
    (initTrack GamePattern.FLAT_WITH_OBSTACLES rng).segments =
      (initLoop GamePattern.FLAT_WITH_OBSTACLES rng 12 0 0 ⟨0, 0, 0⟩).1 ∧
    (initTrack GamePattern.FLAT_WITH_OBSTACLES rng).segments.length = 12 := by
  refine ⟨?_, rfl, rfl, rfl, rfl, ?_⟩
  · simp only [retryTransition, handleRetry, setGameState, resetGame,
      trackLifecycleEffect, hg]
    simp
  · show (initLoop GamePattern.FLAT_WITH_OBSTACLES rng 12 0 0 ⟨0, 0, 0⟩).1.length = 12
    exact initLoop_length _ _ 12 0 0 _

/-- Witness for `retry_resets_and_reseeds` at a concrete game-over store. -/
theorem retry_resets_and_reseeds_witness :
    sampleGameOver.gameState = GameState.GAME_OVER ∧
    retryTransition rng0 sampleGameOver sampleTrack =
      ({ sampleGameOver with
          score := 0, platformsCleared := 0, lives := 1,
          totalCoinsCollected := 0, currentSpeed := 1,
          currentPattern := GamePattern.FLAT_WITH_OBSTACLES,
          patternPlatformCount := 0, gameState := GameState.PLAYING },
        initTrack GamePattern.FLAT_WITH_OBSTACLES rng0) :=
  ⟨rfl, (retry_resets_and_reseeds rng0 sampleGameOver sampleTrack rfl).1⟩

/-! ## C7 — segment chain contiguity -/

/-- The stored geometry of a freshly generated segment is exactly the one
used to place it: center and advanced cursor in terms of its own stored
length, slope and yaw. -/
theorem generateSegment_geometry (pattern : GamePattern) (rng : ℕ → ℚ)
    (k i : ℕ) (cur : Vec3) :
    (generateSegment pattern rng k i cur).1.length =
      (segTypeParams pattern rng k i).length ∧
    (generateSegment pattern rng k i cur).1.slope =
      (segTypeParams pattern rng k i).slope ∧
    (generateSegment pattern rng k i cur).1.yaw =
      (segTypeParams pattern rng k i).yaw ∧
    (generateSegment pattern rng k i cur).1.position =
      vadd cur (vsmul (((segTypeParams pattern rng k i).length : ℝ) / 2)
        (fwdVec (segTypeParams pattern rng k i).slope
          (segTypeParams pattern rng k i).yaw)) ∧
    (generateSegment pattern rng k i cur).2.1 =
      vadd cur (vsmul ((segTypeParams pattern rng k i).length : ℝ)
        (fwdVec (segTypeParams pattern rng k i).slope
          (segTypeParams pattern rng k i).yaw)) :=
  ⟨rfl, rfl, rfl, rfl, rfl⟩

/-- A generated segment's recomputed start is the cursor it was grown from. -/
theorem segStart_generateSegment (pattern : GamePattern) (rng : ℕ → ℚ)
    (k i : ℕ) (cur : Vec3) :
    segStart (generateSegment pattern rng k i cur).1 = cur := by
  obtain ⟨hl, hs, hy, hp, -⟩ := generateSegment_geometry pattern rng k i cur
  unfold segStart
  rw [hl, hs, hy, hp]
  cases cur with
  | mk cx cy cz =>
    simp only [vadd, vsub, vsmul, Vec3.mk.injEq]
    refine ⟨by ring, by ring, by ring⟩

/-- A generated segment's recomputed end is the advanced cursor it returns. -/
theorem segEnd_generateSegment (pattern : GamePattern) (rng : ℕ → ℚ)
    (k i : ℕ) (cur : Vec3) :
    segEnd (generateSegment pattern rng k i cur).1 =
      (generateSegment pattern rng k i cur).2.1 := by
  obtain ⟨hl, hs, hy, hp, hc⟩ := generateSegment_geometry pattern rng k i cur
  unfold segEnd
  rw [hl, hs, hy, hp, hc]
  cases cur with
  | mk cx cy cz =>
    simp only [vadd, vsmul, Vec3.mk.injEq]
    refine ⟨by ring, by ring, by ring⟩

instance : Inhabited Vec3 := ⟨⟨0, 0, 0⟩⟩

instance : Inhabited SegmentData :=
  ⟨{ id := "", position := default, length := 0, width := 0, slope := 0,
     bank := 0, yaw := 0, type := .NORMAL, obstacles := [], coin := none,
     heart := none, platformIndex := 0 }⟩

theorem get_cons_mk_zero {α : Type} (a : α) (l : List α)
    (h : 0 < (a :: l).length) : (a :: l).get ⟨0, h⟩ = a := rfl

theorem genChain_length (pattern : GamePattern) (rng : ℕ → ℚ) :
    ∀ (n i k : ℕ) (cur : Vec3), (genChain pattern rng n i k cur).1.length = n := by
  intro n
  induction n with
  | zero => intro i k cur; rfl
  | succ n ih =>
    intro i k cur
    simp only [genChain, List.length_cons, ih]

/-- The first segment of a non-empty chain starts at the chain's cursor. -/
theorem genChain_head_start (pattern : GamePattern) (rng : ℕ → ℚ)
    (n i k : ℕ) (cur : Vec3) (h : 0 < (genChain pattern rng n i k cur).1.length) :
    segStart ((genChain pattern rng n i k cur).1.get ⟨0, h⟩) = cur := by
  cases n with
  | zero => simp [genChain] at h
  | succ n =>
    simp only [genChain, List.get_cons_zero]
    exact segStart_generateSegment pattern rng k i cur

/-- C7 amended: every chain built by iterating `generateSegment` with the
threaded cursor (the frame-loop append path) is exactly contiguous — each
segment's recomputed start coincides with its predecessor's recomputed end,
both derived from the segments' own stored slope/yaw/length.  (The claim as
stated fails for the first six segments of an `initTrack` window reseeded
under the non-flat pattern, whose slope is overwritten after placement; see
the counterexample.) -/
theorem chain_contiguous (pattern : GamePattern) (rng : ℕ → ℚ)
    (n i k : ℕ) (cur : Vec3) (j : ℕ) (hj : j + 1 < n) :
    segStart ((genChain pattern rng n i k cur).1.get
      ⟨j + 1, by rw [genChain_length]; exact hj⟩) =
    segEnd ((genChain pattern rng n i k cur).1.get
      ⟨j, by rw [genChain_length]; omega⟩) := by
  induction n generalizing i k cur j with
  | zero => omega
  | succ n ih =>
    cases j with
    | zero =>
      simp only [genChain, List.get_cons_succ]
      rw [get_cons_mk_zero, segEnd_generateSegment]
      have hn : 0 < n := by omega
      have hlen : 0 < (genChain pattern rng n (i + 1)
          (generateSegment pattern rng k i cur).2.2
          (generateSegment pattern rng k i cur).2.1).1.length := by
        rw [genChain_length]; omega
      exact genChain_head_start pattern rng n (i + 1) _ _ hlen
    | succ j =>
      have hj' : j + 1 < n := by omega
      simp only [genChain, List.get_cons_succ]
      exact ih (i + 1) _ _ j hj'

/-- Witness for `chain_contiguous`: the second segment of a concrete
three-segment flat chain starts where the first ends. -/
theorem chain_contiguous_witness :
    0 + 1 < 3 ∧
    segStart ((genChain GamePattern.FLAT_WITH_OBSTACLES rng0 3 0 0 ⟨0, 0, 0⟩).1.get
      ⟨0 + 1, by rw [genChain_length]; omega⟩) =
    segEnd ((genChain GamePattern.FLAT_WITH_OBSTACLES rng0 3 0 0 ⟨0, 0, 0⟩).1.get
      ⟨0, by rw [genChain_length]; omega⟩) :=
  ⟨by omega, chain_contiguous GamePattern.FLAT_WITH_OBSTACLES rng0 3 0 0 ⟨0, 0, 0⟩ 0 (by omega)⟩

/-- The window reseeded while the store pattern is the non-flat mode
(reachable: returning to the menu from a pause leaves `currentPattern`
untouched, and `initTrack` also runs on entering MENU). -/
noncomputable def cexWindow : List SegmentData :=
  (initLoop GamePattern.NON_FLAT_NO_OBSTACLES rng0 12 0 0 ⟨0, 0, 0⟩).1

/-- One `initTrack` loop iteration, exposed as a cons cell. -/
theorem initLoop_fst (pattern : GamePattern) (rng : ℕ → ℚ) (n i k : ℕ) (cur : Vec3) :
    (initLoop pattern rng (n + 1) i k cur).1 =
      (if i < 6 then initOverride (generateSegment pattern rng k i cur).1
       else (generateSegment pattern rng k i cur).1) ::
      (initLoop pattern rng n (i + 1) (generateSegment pattern rng k i cur).2.2
        (generateSegment pattern rng k i cur).2.1).1 := rfl

/-- C7 counterexample: in the non-flat reseeded window, the recomputed end
of segment 0 misses the recomputed start of segment 1 by more than 2 world
units of height (the override rewrote their slopes to −0.1 after their
positions had been computed with slope −0.15), far beyond floating-point
tolerance — consecutive segments of that held window are not contiguous. -/
theorem init_reseed_breaks_contiguity :
    2 < (segEnd cexWindow.headI).y - (segStart cexWindow.tail.headI).y ∧
    segEnd cexWindow.headI ≠ segStart cexWindow.tail.headI := by
  have hs15 : Real.sin 0.15 > 0.15 - 0.15 ^ 3 / 4 :=
    Real.sin_gt_sub_cube (by norm_num) (by norm_num)
  have hs10 : Real.sin 0.1 < 0.1 := Real.sin_lt (by norm_num)
  have hmain : (segEnd cexWindow.headI).y - (segStart cexWindow.tail.headI).y =
      55 * (Real.sin 0.15 - Real.sin 0.1) := by
    unfold cexWindow
    rw [show (12 : ℕ) = 11 + 1 from rfl, initLoop_fst,
        show (11 : ℕ) = 10 + 1 from rfl, initLoop_fst]
    simp only [List.headI, List.tail_cons]
    simp [segEnd, segStart, initOverride, generateSegment, segTypeParams,
      rng0, fwdVec, vadd, vsub, vsmul]
    ring
  constructor
  · rw [hmain]
    nlinarith [hs15, hs10]
  · intro heq
    have : (segEnd cexWindow.headI).y = (segStart cexWindow.tail.headI).y := by
      rw [heq]
    rw [this] at hmain
    nlinarith [hs15, hs10]

end Slope
